import Mathlib

/-!
Verification of the HNSW index wrapper (`rust/index/src/hnsw.rs`) against its
natural-language specification.

The repository's Rust sources contain the safe wrapper `HnswIndex` around an
opaque native (C++) HNSW engine reached through an `extern "C"` interface.  The
wrapper is embedded here definition-by-definition from the source.  The native
engine itself is not part of the Rust sources; its behaviour (element storage,
capacity discipline, soft deletion, filtered k-NN result counts, the `ef`
parameter, persistence) is modelled from the specification, with each such
definition marked `Modelled from the spec:` in its doc comment.

Machine integers: `usize` is modelled as `Nat`, `c_int` (`i32`) as `Int`; the
Rust `as` casts appearing in the wrapper (`ef as c_int`, `get_ef(..) as usize`,
`len(..) as usize`, `self.dimensionality as usize`) are modelled explicitly by
`usizeToCInt` / `cIntToUsize` for a 64-bit target.  Vectors of `f32` are
modelled as `List Float`; no claim in this development depends on floating
point arithmetic, only on buffer structure and lengths.
-/

namespace ChromaHnsw

/-- Rust `usize as c_int` on a 64-bit target: truncate to 32 bits and
reinterpret as a signed 32-bit integer. -/
def usizeToCInt (v : Nat) : Int :=
  let r : Nat := v % 2 ^ 32
  if r < 2 ^ 31 then (r : Int) else (r : Int) - 2 ^ 32

/-- Rust `c_int as usize` on a 64-bit target: sign-extend to 64 bits and
reinterpret as unsigned. -/
def cIntToUsize (x : Int) : Nat :=
  (x % 2 ^ 64).toNat

/-- Writing `src` through a raw pointer into a caller-allocated buffer `buf`:
the first `src.length` entries of `buf` are overwritten, the buffer's length
cannot change. -/
def writeInto {α : Type} (buf src : List α) : List α :=
  src.take buf.length ++ buf.drop src.length

/-- Modelled from the spec: the persisted directory contents written by
`save` (§4.5 of the spec): header metadata (`dim`, distance kernel name, `M`,
`ef_construction`, capacity), adjacency and vector data, and the label /
deletion maps.  The spec's §4.5 header does not include `ef_search`, and §9
records that a reimplementation "may choose to persist and restore
`ef_search`", i.e. the current format does not. -/
structure PersistedIndex where
  dim : Int
  space : String
  m : Nat
  ef_construction : Nat
  capacity : Nat
  items : List (Nat × List Float)
  deletedItems : List (Nat × List Float)

/-- Modelled from the spec: the state of the opaque native C++ HNSW index
behind the FFI pointer (`IndexPtrFFI`), which is not part of the Rust sources.
Vectors are keyed by label; `items` are the live entries, `deletedItems` the
soft-deleted ones (spec §3).  `last_error` models the engine's
`get_last_error` slot: every native entry point clears it on entry and sets it
on failure (the spec's scenario 6 requires an operation after a failed `add`
to succeed, so errors are not sticky).  Graph adjacency and distance values
are not modelled: no claim below depends on them. -/
structure NativeIndex where
  space : String
  dim : Int
  capacity : Nat
  m : Nat
  ef_construction : Nat
  random_seed : Nat
  allow_replace_deleted : Bool
  is_persistent : Bool
  path : String
  ef : Int
  fd_open : Bool
  items : List (Nat × List Float)
  deletedItems : List (Nat × List Float)
  last_error : Option String

/-- Modelled from the spec: the native engine's `ef` value before anyone calls
`set_ef`.  The spec does not fix this default; the properties proved below
depend only on it being a constant, independent of every configuration value
and of any persisted data. -/
def nativeDefaultEf : Int := 10

/-- Modelled from the spec: `create_index(space_name, dim)` allocates a fresh,
uninitialized index for the given distance kernel and dimensionality. -/
def create_index (space_name : String) (dim : Int) : NativeIndex :=
  { space := space_name
    dim := dim
    capacity := 0
    m := 0
    ef_construction := 0
    random_seed := 0
    allow_replace_deleted := false
    is_persistent := false
    path := ""
    ef := nativeDefaultEf
    fd_open := false
    items := []
    deletedItems := []
    last_error := none }

/-- Modelled from the spec: `init_index` sets the construction parameters and
the initial capacity (`max_elements`). -/
def NativeIndex.init_index (n : NativeIndex) (max_elements m ef_construction random_seed : Nat)
    (allow_replace_deleted is_persistent : Bool) (path : String) : NativeIndex :=
  { n with
    capacity := max_elements
    m := m
    ef_construction := ef_construction
    random_seed := random_seed
    allow_replace_deleted := allow_replace_deleted
    is_persistent := is_persistent
    path := path
    last_error := none }

/-- Modelled from the spec: `add_item(data, id, replace_deleted)`.  Per §3,
§4.3 and §7: dimension mismatch and duplicate labels are errors; an insert
below capacity appends; at capacity a soft-deleted slot is recycled when
`replace_deleted && allow_replace_deleted` and one exists, otherwise the
insert fails with the capacity-exceeded error.  A failed insert leaves the
elements untouched (§7: the new slot is rejected before any edges are
written). -/
def NativeIndex.add_item (n : NativeIndex) (data : List Float) (id : Nat)
    (replace_deleted : Bool) : NativeIndex :=
  let n := { n with last_error := none }
  if (data.length : Int) != n.dim then
    { n with last_error := some ("DimensionMismatch") }
  else if n.items.any (fun p => p.1 == id) then
    { n with last_error := some ("DuplicateLabel") }
  else if n.items.length + n.deletedItems.length < n.capacity then
    { n with items := n.items ++ [(id, data)] }
  else if replace_deleted && n.allow_replace_deleted then
    match n.deletedItems with
    | [] => { n with last_error := some ("CapacityExceeded") }
    | _ :: rest => { n with deletedItems := rest, items := n.items ++ [(id, data)] }
  else
    { n with last_error := some ("CapacityExceeded") }

/-- Modelled from the spec: `mark_deleted(id)` soft-deletes a live label
(§4.4 Delete); an unknown label is an error (§7). -/
def NativeIndex.mark_deleted (n : NativeIndex) (id : Nat) : NativeIndex :=
  let n := { n with last_error := none }
  match n.items.find? (fun p => p.1 == id) with
  | some p =>
      { n with
        items := n.items.filter (fun q => q.1 != id)
        deletedItems := n.deletedItems ++ [p] }
  | none => { n with last_error := some ("UnknownLabel") }

/-- Modelled from the spec: `get_item(id, data)` writes the stored vector for
`id` through the caller's buffer pointer; for an unknown label the native call
"writes zeros" (spec §9) — the caller's buffer is already zero-filled, so the
buffer is returned unchanged and no error is raised. -/
def NativeIndex.get_item (n : NativeIndex) (id : Nat) (buf : List Float) :
    List Float × NativeIndex :=
  let n := { n with last_error := none }
  match (n.items ++ n.deletedItems).find? (fun p => p.1 == id) with
  | some p => (writeInto buf p.2, n)
  | none => (buf, n)

/-- Modelled from the spec: the entries eligible for a query result under the
inclusion/exclusion filter (§4.4 Query): live (non-deleted) entries whose
label is in `allowed` when `allowed` is non-empty and not in `disallowed`. -/
def NativeIndex.eligible (n : NativeIndex) (allowed disallowed : List Nat) :
    List (Nat × List Float) :=
  n.items.filter (fun p =>
    (allowed.isEmpty || allowed.contains p.1) && !(disallowed.contains p.1))

/-- Modelled from the spec: `knn_query` writes up to `k` eligible results into
the caller's `ids` and `distance` buffers and returns the number written as a
`c_int` (§4.4 Query: "The returned count may be less than `k` if eligible
results are fewer").  The numeric distance values and the distance-based
ordering of the hits are not modelled — no claim below depends on them, only
on the result count and the buffer structure; the distance buffer is filled
with as many entries as hits. -/
def NativeIndex.knn_query (n : NativeIndex) (_query_vector : List Float) (k : Nat)
    (ids : List Nat) (distance : List Float) (allowed disallowed : List Nat) :
    (Int × List Nat × List Float) × NativeIndex :=
  let n := { n with last_error := none }
  let hits := (n.eligible allowed disallowed).take k
  ((usizeToCInt hits.length,
    writeInto ids (hits.map Prod.fst),
    writeInto distance (hits.map (fun _ => (0.0 : Float)))), n)

/-- Modelled from the spec: `len()` returns the number of live (non-deleted)
elements as a `c_int`; it does not touch the error slot ("Does not return an
error" in the source). -/
def NativeIndex.len (n : NativeIndex) : Int :=
  usizeToCInt n.items.length

/-- Modelled from the spec: `len_with_deleted()` counts live plus soft-deleted
elements. -/
def NativeIndex.len_with_deleted (n : NativeIndex) : Int :=
  usizeToCInt (n.items.length + n.deletedItems.length)

/-- Modelled from the spec: `capacity()` returns the current slot capacity. -/
def NativeIndex.capacityFFI (n : NativeIndex) : Int :=
  usizeToCInt n.capacity

/-- Modelled from the spec: `set_ef` stores the search beam width. -/
def NativeIndex.set_ef (n : NativeIndex) (e : Int) : NativeIndex :=
  { n with ef := e, last_error := none }

/-- Modelled from the spec: `get_ef` reads the search beam width back. -/
def NativeIndex.get_ef (n : NativeIndex) : Int × NativeIndex :=
  (n.ef, { n with last_error := none })

/-- Modelled from the spec: `resize_index(new_size)` grows the capacity;
growth is a logical no-op when `new_size` does not exceed the current
capacity (§4.3), and all contents are preserved. -/
def NativeIndex.resize_index (n : NativeIndex) (new_size : Nat) : NativeIndex :=
  { n with capacity := max n.capacity new_size, last_error := none }

/-- Modelled from the spec: `persist_dirty` flushes the index to its persist
directory (§4.5).  The directory contents are described by `snapshot`; the
in-memory state is unchanged. -/
def NativeIndex.persist_dirty (n : NativeIndex) : NativeIndex :=
  { n with last_error := none }

/-- Modelled from the spec: the §4.5 directory contents `persist_dirty`
writes for this index.  Note there is no `ef` field to write: the on-disk
header records `dim`, the kernel name, `M`, `ef_construction` and capacity,
but not `ef_search`. -/
def NativeIndex.snapshot (n : NativeIndex) : PersistedIndex :=
  { dim := n.dim
    space := n.space
    m := n.m
    ef_construction := n.ef_construction
    capacity := n.capacity
    items := n.items
    deletedItems := n.deletedItems }

/-- Modelled from the spec: `load_index(path, …)` reads a persisted directory
back into a freshly created index, allocating to the stored capacity (§4.5).
`content` is what the filesystem holds at the given path (`none` when the
path does not exist).  The `max_elements` argument of the native call is
accepted for signature fidelity; per §4.5 the allocation uses the stored
capacity.  Nothing in the persisted contents carries `ef_search`, so `ef` is
left at whatever the fresh index had. -/
def NativeIndex.load_index (n : NativeIndex) (content : Option PersistedIndex)
    (allow_replace_deleted is_persistent_index : Bool) (_max_elements : Nat) : NativeIndex :=
  let n := { n with last_error := none }
  match content with
  | none => { n with last_error := some ("InvalidPath") }
  | some p =>
      { n with
        capacity := p.capacity
        m := p.m
        ef_construction := p.ef_construction
        items := p.items
        deletedItems := p.deletedItems
        allow_replace_deleted := allow_replace_deleted
        is_persistent := is_persistent_index }

/-- Modelled from the spec: `open_fd` makes file-backed storage resident
(§5); it does not report errors through the wrapper. -/
def NativeIndex.open_fd (n : NativeIndex) : NativeIndex :=
  { n with fd_open := true }

/-- Modelled from the spec: `close_fd` releases the file descriptors (§5). -/
def NativeIndex.close_fd (n : NativeIndex) : NativeIndex :=
  { n with fd_open := false }

/-! The Rust wrapper layer, embedded from `rust/index/src/hnsw.rs`. -/

/-- Source constant `DEFAULT_MAX_ELEMENTS` (hnsw.rs line 10). -/
def DEFAULT_MAX_ELEMENTS : Nat := 10000

/-- Source struct `HnswIndexConfig` (hnsw.rs lines 26-33). -/
structure HnswIndexConfig where
  max_elements : Nat
  m : Nat
  ef_construction : Nat
  ef_search : Nat
  random_seed : Nat
  persist_path : Option String
deriving DecidableEq

/-- Source enum `HnswIndexConfigError` (hnsw.rs lines 36-39). -/
inductive HnswIndexConfigError where
  | MissingConfig (s : String)
deriving DecidableEq

/-- The `ErrorCodes` the wrapper's errors map to through `ChromaError::code`
(the enum lives outside `src/`; only the codes used here are modelled). -/
inductive ErrorCodes where
  | InvalidArgument
  | Internal
deriving DecidableEq

/-- Source `impl ChromaError for HnswIndexConfigError` (hnsw.rs lines 41-45):
every config error carries `ErrorCodes::InvalidArgument`. -/
def HnswIndexConfigError.code : HnswIndexConfigError → ErrorCodes :=
  fun _ => ErrorCodes.InvalidArgument

/-- A Rust `&Path` as far as the wrapper inspects it: `Path::to_str` yields
the path as a string exactly when the underlying OS bytes are valid UTF-8
(`none` models a non-UTF-8 path). -/
structure OsPath where
  utf8 : Option String
deriving DecidableEq

/-- Source `HnswIndexConfig::new_ephemeral` (hnsw.rs lines 48-57). -/
def HnswIndexConfig.new_ephemeral (m ef_construction ef_search : Nat) : HnswIndexConfig :=
  { max_elements := DEFAULT_MAX_ELEMENTS
    m := m
    ef_construction := ef_construction
    ef_search := ef_search
    random_seed := 0
    persist_path := none }

/-- Source `HnswIndexConfig::new_persistent` (hnsw.rs lines 59-81): a path
whose `to_str` fails yields `MissingConfig("persist_path")`, otherwise the
config stores the path string. -/
def HnswIndexConfig.new_persistent (m ef_construction ef_search : Nat)
    (persist_path : OsPath) : Except HnswIndexConfigError HnswIndexConfig :=
  match persist_path.utf8 with
  | none => .error (.MissingConfig ("persist_path"))
  | some p =>
      .ok { max_elements := DEFAULT_MAX_ELEMENTS
            m := m
            ef_construction := ef_construction
            ef_search := ef_search
            random_seed := 0
            persist_path := some p }

/-- The `IndexConfig` struct from the sibling module (not under `src/`);
modelled from the spec §6: a dimensionality and a distance kernel name (the
`Into<String>` conversion of the kernel is modelled as the name itself). -/
structure IndexConfig where
  dimensionality : Int
  distance_function : String
deriving DecidableEq

/-- Source enum `HnswIndexInitError` (hnsw.rs lines 103-110).  The payload of
the `CString`-failure variants is the Rust `NulError` message; its exact text
is immaterial, the offending string is carried instead. -/
inductive HnswIndexInitError where
  | NoConfigProvided
  | InvalidDistanceFunction (s : String)
  | InvalidPath (s : String)
deriving DecidableEq

/-- Source enum `HnswError` (hnsw.rs lines 119-125).  `ErrorStringRead` is
unreachable in this model because modelled error strings are always valid
UTF-8. -/
inductive HnswError where
  | FFIException (s : String)
  | ErrorStringRead
deriving DecidableEq

/-- The `Box<dyn ChromaError>` values the wrapper returns: one of the three
concrete error enums of the source. -/
inductive ChromaErr where
  | configErr (e : HnswIndexConfigError)
  | initErr (e : HnswIndexInitError)
  | hnswErr (e : HnswError)
deriving DecidableEq

/-- Rust `CString::new` fails exactly when the string contains an interior
NUL byte. -/
def containsNul (s : String) : Bool :=
  s.toList.contains (Char.ofNat 0)

/-- Source `read_and_return_hnsw_error` (hnsw.rs lines 365-374): poll the
native error slot and convert a present message into `HnswError::FFIException`. -/
def read_and_return_hnsw_error (n : NativeIndex) : Except ChromaErr Unit :=
  match n.last_error with
  | some s => .error (.hnswErr (.FFIException s))
  | none => .ok ()

/-- Source struct `HnswIndex` (hnsw.rs lines 91-95): the FFI pointer target,
the cached dimensionality and the index id (`IndexUuid` modelled as `Nat`).
Operations that mutate through the pointer return the updated state
alongside their `Result`. -/
structure HnswIndex where
  ffi : NativeIndex
  dimensionality : Int
  id : Nat

/-- Source `HnswIndex::set_ef` (hnsw.rs lines 309-312): note the `ef as c_int`
truncating cast. -/
def HnswIndex.set_ef (self : HnswIndex) (ef : Nat) :
    Except ChromaErr Unit × HnswIndex :=
  let n := self.ffi.set_ef (usizeToCInt ef)
  (read_and_return_hnsw_error n, { self with ffi := n })

/-- Source `HnswIndex::init` (hnsw.rs lines 137-189): reject a missing config,
build the `CString`s, create and initialize the native index (with
`allow_replace_deleted = true` and persistence iff a persist path is
configured), then apply `set_ef(config.ef_search)`. -/
def HnswIndex.init (index_config : IndexConfig) (hnsw_config : Option HnswIndexConfig)
    (id : Nat) : Except ChromaErr HnswIndex :=
  match hnsw_config with
  | none => .error (.initErr .NoConfigProvided)
  | some config =>
      let distance_function_string := index_config.distance_function
      if containsNul distance_function_string then
        .error (.initErr (.InvalidDistanceFunction distance_function_string))
      else
        let ffi0 := create_index distance_function_string index_config.dimensionality
        match read_and_return_hnsw_error ffi0 with
        | .error e => .error e
        | .ok _ =>
            let path_str := config.persist_path.getD ""
            if containsNul path_str then
              .error (.initErr (.InvalidPath path_str))
            else
              let ffi1 := ffi0.init_index config.max_elements config.m
                  config.ef_construction config.random_seed true
                  config.persist_path.isSome path_str
              match read_and_return_hnsw_error ffi1 with
              | .error e => .error e
              | .ok _ =>
                  let hnsw_index : HnswIndex :=
                    { ffi := ffi1
                      dimensionality := index_config.dimensionality
                      id := id }
                  match hnsw_index.set_ef config.ef_search with
                  | (.error e, _) => .error e
                  | (.ok _, idx) => .ok idx

/-- Source `HnswIndex::add` (hnsw.rs lines 191-194): `add_item` with
`replace_deleted = true`, then poll the error slot. -/
def HnswIndex.add (self : HnswIndex) (id : Nat) (vector : List Float) :
    Except ChromaErr Unit × HnswIndex :=
  let n := self.ffi.add_item vector id true
  (read_and_return_hnsw_error n, { self with ffi := n })

/-- Source `HnswIndex::delete` (hnsw.rs lines 196-199). -/
def HnswIndex.delete (self : HnswIndex) (id : Nat) :
    Except ChromaErr Unit × HnswIndex :=
  let n := self.ffi.mark_deleted id
  (read_and_return_hnsw_error n, { self with ffi := n })

/-- Source `HnswIndex::len` (hnsw.rs lines 314-317): the native `c_int` count
cast with `as usize`. -/
def HnswIndex.len (self : HnswIndex) : Nat :=
  cIntToUsize self.ffi.len

/-- Source `HnswIndex::len_with_deleted` (hnsw.rs lines 319-322). -/
def HnswIndex.len_with_deleted (self : HnswIndex) : Nat :=
  cIntToUsize self.ffi.len_with_deleted

/-- Source `HnswIndex::is_empty` (hnsw.rs lines 324-326). -/
def HnswIndex.is_empty (self : HnswIndex) : Bool :=
  self.len == 0

/-- Source `HnswIndex::capacity` (hnsw.rs lines 332-335). -/
def HnswIndex.capacity (self : HnswIndex) : Nat :=
  cIntToUsize self.ffi.capacityFFI

/-- Source `HnswIndex::query` (hnsw.rs lines 201-231): size both result
buffers to `actual_k = min(k, len())`, pass the caller's **unclamped** `k` to
the native `knn_query`, then truncate both buffers when fewer than `actual_k`
results came back. -/
def HnswIndex.query (self : HnswIndex) (vector : List Float) (k : Nat)
    (allowed_ids disallowed_ids : List Nat) :
    Except ChromaErr (List Nat × List Float) × HnswIndex :=
  let actual_k := min k self.len
  let ids0 : List Nat := List.replicate actual_k 0
  let distance0 : List Float := List.replicate actual_k (0.0 : Float)
  let step := self.ffi.knn_query vector k ids0 distance0 allowed_ids disallowed_ids
  let total_result := cIntToUsize step.1.1
  let ids := step.1.2.1
  let distance := step.1.2.2
  (match read_and_return_hnsw_error step.2 with
   | .error e => .error e
   | .ok _ =>
       if total_result < actual_k then
         .ok (ids.take total_result, distance.take total_result)
       else
         .ok (ids, distance),
   { self with ffi := step.2 })

/-- Source `HnswIndex::get` (hnsw.rs lines 233-240): allocate a zero-filled
buffer of `self.dimensionality as usize` floats, let the native call fill it,
and on a clean error slot return `Ok(Some(data))` — the code has no path
returning `Ok(None)`. -/
def HnswIndex.get (self : HnswIndex) (id : Nat) :
    Except ChromaErr (Option (List Float)) × HnswIndex :=
  let data0 : List Float := List.replicate (cIntToUsize self.dimensionality) (0.0 : Float)
  let step := self.ffi.get_item id data0
  (match read_and_return_hnsw_error step.2 with
   | .error e => .error e
   | .ok _ => .ok (some step.1),
   { self with ffi := step.2 })

/-- Source `HnswIndex::resize` (hnsw.rs lines 337-340). -/
def HnswIndex.resize (self : HnswIndex) (new_size : Nat) :
    Except ChromaErr Unit × HnswIndex :=
  let n := self.ffi.resize_index new_size
  (read_and_return_hnsw_error n, { self with ffi := n })

/-- Source `HnswIndex::save` (hnsw.rs lines 266-270). -/
def HnswIndex.save (self : HnswIndex) :
    Except ChromaErr Unit × HnswIndex :=
  let n := self.ffi.persist_dirty
  (read_and_return_hnsw_error n, { self with ffi := n })

/-- Source `HnswIndex::open_fd` (hnsw.rs lines 342-344). -/
def HnswIndex.open_fd (self : HnswIndex) : HnswIndex :=
  { self with ffi := self.ffi.open_fd }

/-- Source `HnswIndex::close_fd` (hnsw.rs lines 346-348). -/
def HnswIndex.close_fd (self : HnswIndex) : HnswIndex :=
  { self with ffi := self.ffi.close_fd }

/-- Source `HnswIndex::get_ef` (hnsw.rs lines 350-356): the native `c_int`
value cast with `as usize`, returned after polling the error slot. -/
def HnswIndex.get_ef (self : HnswIndex) :
    Except ChromaErr Nat × HnswIndex :=
  let step := self.ffi.get_ef
  (match read_and_return_hnsw_error step.2 with
   | .error e => .error e
   | .ok _ => .ok (cIntToUsize step.1),
   { self with ffi := step.2 })

/-- Source `HnswIndex::load` (hnsw.rs lines 273-305): create a fresh native
index for the configured kernel and dimensionality, then `load_index` from
the path (with `allow_replace_deleted = true`, `is_persistent = true` and
`DEFAULT_MAX_ELEMENTS`).  `fs` models the filesystem: the persisted directory
contents at each path, if any.  Unlike `init`, no `set_ef` call is made. -/
def HnswIndex.load (fs : String → Option PersistedIndex) (path : String)
    (index_config : IndexConfig) (id : Nat) : Except ChromaErr HnswIndex :=
  let distance_function_string := index_config.distance_function
  if containsNul distance_function_string then
    .error (.initErr (.InvalidDistanceFunction distance_function_string))
  else
    let ffi0 := create_index distance_function_string index_config.dimensionality
    match read_and_return_hnsw_error ffi0 with
    | .error e => .error e
    | .ok _ =>
        if containsNul path then
          .error (.initErr (.InvalidPath path))
        else
          let ffi1 := ffi0.load_index (fs path) true true DEFAULT_MAX_ELEMENTS
          match read_and_return_hnsw_error ffi1 with
          | .error e => .error e
          | .ok _ =>
              .ok { ffi := ffi1
                    dimensionality := index_config.dimensionality
                    id := id }

/-- One wrapper operation of the mutating/reading surface, for stating
lifetime invariants over arbitrary call sequences. -/
inductive Op where
  | add (id : Nat) (vector : List Float)
  | delete (id : Nat)
  | query (vector : List Float) (k : Nat) (allowed disallowed : List Nat)
  | resize (new_size : Nat)
  | set_ef (ef : Nat)
  | save
  | open_fd
  | close_fd

/-- Apply one operation to an index, keeping the updated state. -/
def applyOp (self : HnswIndex) : Op → HnswIndex
  | .add id v => (self.add id v).2
  | .delete id => (self.delete id).2
  | .query v k a d => (self.query v k a d).2
  | .resize s => (self.resize s).2
  | .set_ef e => (self.set_ef e).2
  | .save => self.save.2
  | .open_fd => self.open_fd
  | .close_fd => self.close_fd

/-- Apply a sequence of operations left to right. -/
def applyOps (self : HnswIndex) (ops : List Op) : HnswIndex :=
  ops.foldl applyOp self

/-- Run a sequence of `add` calls, stopping at the first failure; the flag
records whether every call succeeded. -/
def addSeq : HnswIndex → List (Nat × List Float) → Bool × HnswIndex
  | idx, [] => (true, idx)
  | idx, (l, v) :: rest =>
      match idx.add l v with
      | (.ok _, idx1) => addSeq idx1 rest
      | (.error _, idx1) => (false, idx1)

/-! Concrete sample data used by counterexamples and witnesses. -/

/-- A concrete two-dimensional Euclidean index configuration. -/
def sampleIndexConfig : IndexConfig :=
  { dimensionality := 2, distance_function := "l2" }

/-- A concrete engine configuration with capacity 10 and `ef_search = 10`. -/
def sampleHnswConfig : HnswIndexConfig :=
  { max_elements := 10
    m := 16
    ef_construction := 100
    ef_search := 10
    random_seed := 0
    persist_path := none }

/-- A throwaway index value, used only as the `Option.getD` default below;
every use is behind a successful construction. -/
def fallbackIndex : HnswIndex :=
  { ffi := create_index ("") 0, dimensionality := 0, id := 0 }

/-- The index obtained by `init` from the sample configurations: empty,
capacity 10, dimensionality 2. -/
def sampleIndex : HnswIndex :=
  (HnswIndex.init sampleIndexConfig (some sampleHnswConfig) 7).toOption.getD fallbackIndex

/-- The sample index after adding one vector with label 7. -/
def sampleIndexOne : HnswIndex :=
  (sampleIndex.add 7 [0.0, 0.0]).2

/-- The result of querying the one-element sample index with `k = 2`. -/
def sampleQueryResult : List Nat × List Float :=
  ((sampleIndexOne.query [0.0, 0.0] 2 [] []).1).toOption.getD ([], [])

/-- The vector returned by getting the never-added label 5 from the sample
index. -/
def sampleGetVec : List Float :=
  ((sampleIndex.get 5).1.toOption.getD none).getD []

/-- Ten concrete insertions with distinct labels `0..9`. -/
def samplePairs : List (Nat × List Float) :=
  (List.range 10).map (fun i => (i, [0.0, 0.0]))

/-- A sample operation sequence exercising every wrapper operation that can
run after construction. -/
def sampleOps : List Op :=
  [Op.add 7 [0.0, 0.0], Op.set_ef 100, Op.resize 20, Op.save, Op.open_fd,
   Op.close_fd, Op.delete 7, Op.query [] 1 [] []]

/-- The sample index with `ef` reconfigured to 100, playing the role of the
index that gets persisted. -/
def sampleSavedIndex : HnswIndex :=
  (sampleIndex.set_ef 100).2

/-- A one-directory filesystem holding the saved sample index. -/
def sampleFs : String → Option PersistedIndex :=
  fun p => if p = ("dir") then some sampleSavedIndex.ffi.snapshot else none

/-- The sample index as it comes back from `load`. -/
def sampleLoadedIndex : HnswIndex :=
  (HnswIndex.load sampleFs ("dir") sampleIndexConfig 7).toOption.getD fallbackIndex

/-! Helper lemmas. -/

/-- The `usize → c_int → usize` cast round-trip is the identity below `2^31`. -/
lemma rt_small (x : Nat) (h : x < 2 ^ 31) : cIntToUsize (usizeToCInt x) = x := by
  have h1 : x % 2 ^ 32 = x := Nat.mod_eq_of_lt (by omega)
  have h2 : usizeToCInt x = (x : Int) := by
    simp only [usizeToCInt, h1]
    rw [if_pos (by omega)]
  rw [h2]
  simp only [cIntToUsize]
  rw [Int.emod_eq_of_lt (by positivity) (by exact_mod_cast by omega)]
  simp

/-- Writing through a pointer never changes the buffer's length. -/
lemma writeInto_length {α : Type} (buf src : List α) :
    (writeInto buf src).length = buf.length := by
  simp [writeInto]
  omega

/-- Clearing an already-clear error slot is the identity. -/
lemma NativeIndex.set_none_eq {n : NativeIndex} (h : n.last_error = none) :
    { n with last_error := none } = n := by
  cases n
  simp_all

/-- A label absent from the key column never matches the duplicate check. -/
lemma any_fst_eq_false {items : List (Nat × List Float)} {l : Nat}
    (h : l ∉ items.map Prod.fst) : items.any (fun p => p.1 == l) = false := by
  rw [List.any_eq_false]
  intro p hp
  simp only [beq_iff_eq]
  intro hEq
  exact h (List.mem_map.mpr ⟨p, hp, hEq⟩)

/-- Inversion of a successful `init`: the fields of the freshly constructed
index (empty contents, configured capacity, `allow_replace_deleted = true`,
`ef` from `ef_search` through the `c_int` cast, clear error slot). -/
lemma init_ok_fields (icfg : IndexConfig) (hc : HnswIndexConfig) (uid : Nat)
    (idx : HnswIndex) (h : HnswIndex.init icfg (some hc) uid = .ok idx) :
    idx.dimensionality = icfg.dimensionality ∧
    idx.id = uid ∧
    idx.ffi.items = [] ∧
    idx.ffi.deletedItems = [] ∧
    idx.ffi.capacity = hc.max_elements ∧
    idx.ffi.allow_replace_deleted = true ∧
    idx.ffi.dim = icfg.dimensionality ∧
    idx.ffi.ef = usizeToCInt hc.ef_search ∧
    idx.ffi.last_error = none := by
  simp only [HnswIndex.init, create_index, NativeIndex.init_index, HnswIndex.set_ef,
    NativeIndex.set_ef, read_and_return_hnsw_error] at h
  split at h
  · exact absurd h (by simp)
  · split at h
    · exact absurd h (by simp)
    · simp only [Except.ok.injEq] at h
      subst h
      exact ⟨rfl, rfl, rfl, rfl, rfl, rfl, rfl, rfl, rfl⟩

/-- A fresh-label insert below capacity succeeds and appends the entry. -/
lemma add_ok (idx : HnswIndex) (l : Nat) (vec : List Float)
    (hdim : (vec.length : Int) = idx.ffi.dim)
    (hfresh : l ∉ idx.ffi.items.map Prod.fst)
    (hcap : idx.ffi.items.length + idx.ffi.deletedItems.length < idx.ffi.capacity) :
    idx.add l vec =
      (.ok (), { idx with ffi :=
        { idx.ffi with items := idx.ffi.items ++ [(l, vec)], last_error := none } }) := by
  have h1 : ((vec.length : Int) != idx.ffi.dim) = false := by simp [hdim]
  have h2 := any_fst_eq_false hfresh
  simp [HnswIndex.add, NativeIndex.add_item, h1, h2, hcap, read_and_return_hnsw_error]

/-- A fresh-label insert at capacity with no soft-deleted slot to recycle
fails with the capacity-exceeded error and leaves the contents untouched. -/
lemma add_capacity_error (idx : HnswIndex) (l : Nat) (vec : List Float)
    (hdim : (vec.length : Int) = idx.ffi.dim)
    (hfresh : l ∉ idx.ffi.items.map Prod.fst)
    (hcap : ¬ idx.ffi.items.length + idx.ffi.deletedItems.length < idx.ffi.capacity)
    (hdel : idx.ffi.deletedItems = []) :
    idx.add l vec =
      (.error (.hnswErr (.FFIException ("CapacityExceeded"))),
       { idx with ffi := { idx.ffi with last_error := some ("CapacityExceeded") } }) := by
  have h1 : ((vec.length : Int) != idx.ffi.dim) = false := by simp [hdim]
  have h2 := any_fst_eq_false hfresh
  have hcap1 : ¬ idx.ffi.items.length < idx.ffi.capacity := by
    rw [hdel] at hcap
    simpa using hcap
  cases hA : idx.ffi.allow_replace_deleted <;>
    simp [HnswIndex.add, NativeIndex.add_item, h1, h2, hcap1, hdel, hA,
      read_and_return_hnsw_error]

/-- Updating the items of an index whose error slot is clear need not
mention the error slot. -/
lemma NativeIndex.set_items_none_eq {n : NativeIndex} (h : n.last_error = none)
    (X : List (Nat × List Float)) :
    ({ n with items := X, last_error := none } : NativeIndex) = { n with items := X } := by
  cases n
  simp_all

/-- Folding fresh, pairwise-distinct, dimension-correct inserts that fit in
the capacity over an index with no deletions succeeds and appends all the
entries in order. -/
lemma addSeq_ok (pairs : List (Nat × List Float)) : ∀ (idx : HnswIndex),
    (∀ p ∈ pairs, (p.2.length : Int) = idx.ffi.dim) →
    ((idx.ffi.items.map Prod.fst) ++ (pairs.map Prod.fst)).Nodup →
    idx.ffi.items.length + pairs.length ≤ idx.ffi.capacity →
    idx.ffi.deletedItems = [] →
    idx.ffi.last_error = none →
    addSeq idx pairs =
      (true, { idx with ffi := { idx.ffi with items := idx.ffi.items ++ pairs } }) := by
  induction pairs with
  | nil =>
      intro idx _ _ _ _ _
      simp only [addSeq, List.append_nil]
  | cons hd rest IH =>
      obtain ⟨l, v⟩ := hd
      intro idx hdim hnodup hcap hdel herr
      have hd1 : (v.length : Int) = idx.ffi.dim := hdim (l, v) (List.mem_cons_self _ _)
      have hfresh : l ∉ idx.ffi.items.map Prod.fst := by
        rw [List.nodup_append] at hnodup
        intro hla
        exact hnodup.2.2 hla (by simp)
      have hcap1 : idx.ffi.items.length + idx.ffi.deletedItems.length < idx.ffi.capacity := by
        rw [hdel]
        simp only [List.length_cons] at hcap
        simp
        omega
      simp only [addSeq, add_ok idx l v hd1 hfresh hcap1]
      have hIH := IH { idx with ffi :=
          { idx.ffi with items := idx.ffi.items ++ [(l, v)], last_error := none } }
        (fun p hp => hdim p (List.mem_cons_of_mem _ hp))
        (by simpa [List.append_assoc] using hnodup)
        (by simp only [List.length_append, List.length_cons] at hcap ⊢; simp; omega)
        hdel
        rfl
      rw [hIH]
      simp [NativeIndex.set_items_none_eq herr, List.append_assoc]

/-- Result-only variant of `add_ok`, convenient when the state is a long
projection chain. -/
lemma add_ok_fst (j : HnswIndex) (l : Nat) (vec : List Float)
    (hdim : (vec.length : Int) = j.ffi.dim)
    (hfresh : l ∉ j.ffi.items.map Prod.fst)
    (hcap : j.ffi.items.length + j.ffi.deletedItems.length < j.ffi.capacity) :
    (j.add l vec).1 = .ok () := by
  rw [add_ok j l vec hdim hfresh hcap]

/-- every `resize` call reports success: the native `resize_index` clears the
error slot and the wrapper's poll finds it clean. -/
lemma resize_fst_ok (j : HnswIndex) (s : Nat) : (j.resize s).1 = .ok () := rfl

/-- Characterization of the lengths of a successful query's result vectors:
both equal `min(total_result, min(k, len()))`, where `total_result` is the
native hit count `min(k, |eligible|)` after its `c_int` round-trip. -/
lemma query_ok_lengths (self : HnswIndex) (v : List Float) (k : Nat) (a d : List Nat)
    (ids : List Nat) (dists : List Float)
    (h : (self.query v k a d).1 = .ok (ids, dists)) :
    ids.length =
      min (cIntToUsize (usizeToCInt (min k (self.ffi.eligible a d).length))) (min k self.len) ∧
    dists.length =
      min (cIntToUsize (usizeToCInt (min k (self.ffi.eligible a d).length))) (min k self.len) := by
  have hE : NativeIndex.eligible { self.ffi with last_error := none } a d =
      self.ffi.eligible a d := rfl
  simp only [HnswIndex.query, NativeIndex.knn_query, read_and_return_hnsw_error] at h
  rw [hE] at h
  split at h
  case isTrue hlt =>
    simp only [Except.ok.injEq, Prod.mk.injEq] at h
    obtain ⟨h1, h2⟩ := h
    subst h1
    subst h2
    simp only [List.length_take] at hlt
    constructor <;>
      simp only [List.length_take, writeInto_length, List.length_replicate]
  case isFalse hge =>
    simp only [Except.ok.injEq, Prod.mk.injEq] at h
    obtain ⟨h1, h2⟩ := h
    subst h1
    subst h2
    simp only [List.length_take] at hge
    constructor <;>
      simp only [List.length_take, writeInto_length, List.length_replicate] <;> omega

/-- Applying any single wrapper operation leaves the cached dimensionality
field untouched. -/
lemma applyOp_dim (idx : HnswIndex) (op : Op) :
    (applyOp idx op).dimensionality = idx.dimensionality := by
  cases op <;> rfl

/-- Applying any sequence of wrapper operations leaves the dimensionality
untouched. -/
lemma applyOps_dim (ops : List Op) : ∀ (j : HnswIndex),
    (applyOps j ops).dimensionality = j.dimensionality := by
  induction ops with
  | nil => intro j; rfl
  | cons o rest IH =>
      intro j
      simp only [applyOps, List.foldl_cons]
      have hrest := IH (applyOp j o)
      simp only [applyOps] at hrest
      rw [hrest, applyOp_dim]

/-! Claim theorems. -/

/-- C1 (counterexample): on an index holding one element, a successful
`query` with `k = 2 > len() = 1` whose eligible results are not fewer than
the clamp `min(k, len()) = 1` returns vectors of length 1, not the caller's
`k = 2` — the output buffers are not sized from `k`. -/
theorem query_output_not_sized_from_k_cex :
    sampleIndexOne.len = 1 ∧
    (sampleIndexOne.ffi.eligible [] []).length = 1 ∧
    ((sampleIndexOne.query [0.0, 0.0] 2 [] []).1.toOption.map
        (fun p => (p.1, p.1.length, p.2.length))) = some ([7], 1, 1) ∧
    (1 : Nat) ≠ 2 := by
  refine ⟨by decide, by decide, ?_, by decide⟩
  rfl

/-- C1 (amended): `query` passes the caller's unclamped `k` to the native
search, but sizes both result buffers — and hence the returned vectors — to
`min(k, len())`: the returned length never exceeds `min(k, len())`, and
equals it whenever the eligible results are not fewer than `min(k, len())`. -/
theorem query_output_sized_from_clamped_k (self : HnswIndex) (v : List Float) (k : Nat)
    (a d : List Nat) (ids : List Nat) (dists : List Float)
    (hsmall : self.ffi.items.length < 2 ^ 31)
    (h : (self.query v k a d).1 = .ok (ids, dists)) :
    ids.length ≤ min k self.len ∧
    (min k self.len ≤ (self.ffi.eligible a d).length → ids.length = min k self.len) := by
  obtain ⟨h1, -⟩ := query_ok_lengths self v k a d ids dists h
  have hel : (self.ffi.eligible a d).length ≤ self.ffi.items.length := by
    simp only [NativeIndex.eligible]
    exact List.length_filter_le _ _
  have hrt : cIntToUsize (usizeToCInt (min k (self.ffi.eligible a d).length)) =
      min k (self.ffi.eligible a d).length := rt_small _ (by omega)
  have hlen : self.len = self.ffi.items.length := by
    simp only [HnswIndex.len, NativeIndex.len]
    exact rt_small _ hsmall
  rw [hrt] at h1
  constructor
  · rw [h1]
    omega
  · intro hge
    rw [h1]
    omega

/-- C1 (witness for the amended theorem, at the concrete one-element index
queried with `k = 2`). -/
theorem query_output_sized_from_clamped_k_witness :
    sampleIndexOne.ffi.items.length < 2 ^ 31 ∧
    (sampleQueryResult.1.length ≤ min 2 sampleIndexOne.len ∧
     (min 2 sampleIndexOne.len ≤ (sampleIndexOne.ffi.eligible [] []).length →
        sampleQueryResult.1.length = min 2 sampleIndexOne.len)) :=
  ⟨by decide,
   query_output_sized_from_clamped_k sampleIndexOne [0.0, 0.0] 2 [] []
     sampleQueryResult.1 sampleQueryResult.2 (by decide) rfl⟩

/-- C2: `get` has no code path returning `Ok(None)`: every non-error result
is `Ok(Some(buffer))`; for a label never added (absent from both the live
and the soft-deleted entries) the zero-filled buffer comes back unchanged,
so the result is `Ok(Some(zero vector))`. -/
theorem get_never_returns_none (idx : HnswIndex) (label : Nat) :
    (idx.get label).1 ≠ .ok none ∧
    ((idx.ffi.items ++ idx.ffi.deletedItems).find? (fun p => p.1 == label) = none →
      (idx.get label).1 =
        .ok (some (List.replicate (cIntToUsize idx.dimensionality) (0.0 : Float)))) := by
  constructor
  · simp only [HnswIndex.get, NativeIndex.get_item, read_and_return_hnsw_error]
    split <;> simp
  · intro hnone
    simp only [HnswIndex.get, NativeIndex.get_item, read_and_return_hnsw_error]
    rw [show (({ idx.ffi with last_error := none } : NativeIndex).items ++
        ({ idx.ffi with last_error := none } : NativeIndex).deletedItems) =
        (idx.ffi.items ++ idx.ffi.deletedItems) from rfl, hnone]

/-- C2 (witness): getting a never-added label from the concrete empty index
returns the zero vector of the index's dimensionality. -/
theorem get_never_returns_none_witness :
    (sampleIndex.ffi.items ++ sampleIndex.ffi.deletedItems).find?
        (fun p => p.1 == 5) = none ∧
    (sampleIndex.get 5).1 =
      .ok (some (List.replicate (cIntToUsize sampleIndex.dimensionality) (0.0 : Float))) :=
  ⟨rfl, (get_never_returns_none sampleIndex 5).2 rfl⟩

/-- C3: on an index initialized with `max_elements = 10`, ten inserts with
distinct fresh labels of the right dimension all succeed (`len() = 10`), an
eleventh insert with a fresh label fails with the capacity-exceeded error
(no soft-deleted slot is available for reuse), and after `resize(20)` that
same insert succeeds. -/
theorem capacity_exceeded_scenario
    (icfg : IndexConfig) (hc : HnswIndexConfig) (uid : Nat) (idx : HnswIndex)
    (pairs : List (Nat × List Float)) (freshLabel : Nat) (vec : List Float)
    (hmax : hc.max_elements = 10)
    (hinit : HnswIndex.init icfg (some hc) uid = .ok idx)
    (hlen : pairs.length = 10)
    (hnodup : (pairs.map Prod.fst).Nodup)
    (hdims : ∀ p ∈ pairs, (p.2.length : Int) = icfg.dimensionality)
    (hfresh : freshLabel ∉ pairs.map Prod.fst)
    (hvec : (vec.length : Int) = icfg.dimensionality) :
    (addSeq idx pairs).1 = true ∧
    (addSeq idx pairs).2.len = 10 ∧
    ((addSeq idx pairs).2.add freshLabel vec).1 =
        .error (.hnswErr (.FFIException ("CapacityExceeded"))) ∧
    (((addSeq idx pairs).2.add freshLabel vec).2.resize 20).1 = .ok () ∧
    ((((addSeq idx pairs).2.add freshLabel vec).2.resize 20).2.add freshLabel vec).1 =
        .ok () := by
  obtain ⟨hdimIdx, hid, hitems, hdel, hcapQ, hallow, hdimffi, hef, herr⟩ :=
    init_ok_fields _ _ _ _ hinit
  have hvec1 : (vec.length : Int) = idx.ffi.dim := by rw [hdimffi]; exact hvec
  have hseq := addSeq_ok pairs idx
    (fun p hp => by rw [hdimffi]; exact hdims p hp)
    (by rw [hitems]; simpa using hnodup)
    (by rw [hitems, hcapQ, hmax, hlen]; simp)
    hdel herr
  have herrA := add_capacity_error
    { idx with ffi := { idx.ffi with items := idx.ffi.items ++ pairs } }
    freshLabel vec
    hvec1
    (by show freshLabel ∉ (idx.ffi.items ++ pairs).map Prod.fst
        rw [hitems]
        simpa using hfresh)
    (by show ¬ (idx.ffi.items ++ pairs).length + idx.ffi.deletedItems.length <
          idx.ffi.capacity
        rw [hitems, hdel, hcapQ, hmax]
        simp [hlen])
    hdel
  refine ⟨?_, ?_, ?_, ?_, ?_⟩
  · simp only [hseq]
  · simp only [hseq, HnswIndex.len, NativeIndex.len]
    rw [hitems]
    simp only [List.nil_append, hlen]
    exact rt_small 10 (by norm_num)
  · simp only [hseq, herrA]
  · exact resize_fst_ok _ _
  · simp only [hseq, herrA]
    apply add_ok_fst
    · exact hvec1
    · show freshLabel ∉ (idx.ffi.items ++ pairs).map Prod.fst
      rw [hitems]
      simpa using hfresh
    · show (idx.ffi.items ++ pairs).length + idx.ffi.deletedItems.length <
        max idx.ffi.capacity 20
      rw [hitems, hdel, hcapQ, hmax]
      simp [hlen]

/-- C3 (witness at the concrete capacity-10 index, labels 0..9, fresh label
100). -/
theorem capacity_exceeded_scenario_witness :
    samplePairs.length = 10 ∧
    ((addSeq sampleIndex samplePairs).1 = true ∧
     (addSeq sampleIndex samplePairs).2.len = 10 ∧
     ((addSeq sampleIndex samplePairs).2.add 100 [0.0, 0.0]).1 =
         .error (.hnswErr (.FFIException ("CapacityExceeded"))) ∧
     (((addSeq sampleIndex samplePairs).2.add 100 [0.0, 0.0]).2.resize 20).1 = .ok () ∧
     ((((addSeq sampleIndex samplePairs).2.add 100 [0.0, 0.0]).2.resize 20).2.add 100
         [0.0, 0.0]).1 = .ok ()) :=
  ⟨by decide,
   capacity_exceeded_scenario sampleIndexConfig sampleHnswConfig 7 sampleIndex samplePairs
     100 [0.0, 0.0] rfl rfl (by decide) (by decide)
     (by simp [samplePairs, sampleIndexConfig]) (by decide) (by decide)⟩

/-- C4: on an empty index (`len() = 0`) every query returns empty label and
distance vectors, for every `k` and every filter: the buffers are sized to
`min(k, 0) = 0` and truncation cannot lengthen them. -/
theorem query_empty_index_returns_empty (self : HnswIndex) (v : List Float) (k : Nat)
    (a d : List Nat) (h : self.len = 0) :
    (self.query v k a d).1 = .ok ([], []) := by
  simp [HnswIndex.query, NativeIndex.knn_query, read_and_return_hnsw_error, writeInto, h]

/-- C4 (witness at the concrete empty index with `k = 5`). -/
theorem query_empty_index_returns_empty_witness :
    sampleIndex.len = 0 ∧ (sampleIndex.query [] 5 [] []).1 = .ok ([], []) :=
  ⟨by decide, query_empty_index_returns_empty sampleIndex [] 5 [] [] (by decide)⟩

/-- C5 (counterexample): the ef round-trip fails for values at or above
`2^31`: `set_ef(2^31)` followed by `get_ef()` yields `2^64 - 2^31`, because
`set_ef` casts its `usize` argument with `as c_int` (truncation to a negative
32-bit value) and `get_ef` casts back with `as usize` (sign extension). -/
theorem set_ef_roundtrip_cex :
    ((sampleIndex.set_ef (2 ^ 31)).2.get_ef).1 = .ok (2 ^ 64 - 2 ^ 31) ∧
    (2 ^ 64 - 2 ^ 31 : Nat) ≠ 2 ^ 31 := by
  constructor
  · rfl
  · decide

/-- C5 (amended): the set/get ef round-trip holds for all values below
`2^31` (the range where the wrapper's `usize as c_int` and `c_int as usize`
casts are inverse): after `init` with `ef_search = e < 2^31`, `get_ef()`
returns `e`, and after `set_ef(v)` with `v < 2^31`, `get_ef()` returns `v`. -/
theorem set_get_ef_roundtrip_small (icfg : IndexConfig) (hc : HnswIndexConfig)
    (uid : Nat) (idx j : HnswIndex) (v : Nat)
    (hefs : hc.ef_search < 2 ^ 31)
    (hinit : HnswIndex.init icfg (some hc) uid = .ok idx)
    (hv : v < 2 ^ 31) :
    (idx.get_ef).1 = .ok hc.ef_search ∧ ((j.set_ef v).2.get_ef).1 = .ok v := by
  have hef := (init_ok_fields _ _ _ _ hinit).2.2.2.2.2.2.2.1
  constructor
  · simp only [HnswIndex.get_ef, NativeIndex.get_ef, read_and_return_hnsw_error]
    rw [hef, rt_small _ hefs]
  · simp only [HnswIndex.get_ef, NativeIndex.get_ef, HnswIndex.set_ef, NativeIndex.set_ef,
      read_and_return_hnsw_error]
    rw [rt_small _ hv]

/-- C5 (witness for the amended theorem: the spec's own scenario, `ef_search
= 10` then `set_ef(100)`). -/
theorem set_get_ef_roundtrip_small_witness :
    sampleHnswConfig.ef_search < 2 ^ 31 ∧
    ((sampleIndex.get_ef).1 = .ok sampleHnswConfig.ef_search ∧
     ((sampleIndex.set_ef 100).2.get_ef).1 = .ok 100) :=
  ⟨by decide,
   set_get_ef_roundtrip_small sampleIndexConfig sampleHnswConfig 7 sampleIndex sampleIndex
     100 (by decide) rfl (by decide)⟩

/-- C6: `load` does not restore the persisted index's `ef_search`: the
loaded index's `ef` is the engine default, independent of the saved index
and of every configuration value (the persisted format has no `ef` field and
`load`, unlike `init`, performs no `set_ef`); a subsequent `set_ef` is what
establishes the desired beam width. -/
theorem load_does_not_restore_ef (src : HnswIndex) (fs : String → Option PersistedIndex)
    (path : String) (icfg : IndexConfig) (uid : Nat) (idx : HnswIndex) (e : Nat)
    (hfs : fs path = some src.ffi.snapshot)
    (hload : HnswIndex.load fs path icfg uid = .ok idx) :
    idx.ffi.ef = nativeDefaultEf ∧
    (idx.set_ef e).2.ffi.ef = usizeToCInt e ∧
    (∀ (icfg2 : IndexConfig) (hc : HnswIndexConfig) (uid2 : Nat) (idx2 : HnswIndex),
      HnswIndex.init icfg2 (some hc) uid2 = .ok idx2 →
      idx2.ffi.ef = usizeToCInt hc.ef_search) := by
  refine ⟨?_, rfl, fun icfg2 hc uid2 idx2 hI => (init_ok_fields _ _ _ _ hI).2.2.2.2.2.2.2.1⟩
  simp only [HnswIndex.load, create_index, NativeIndex.load_index,
    read_and_return_hnsw_error, hfs] at hload
  split at hload
  · exact absurd hload (by simp)
  · split at hload
    · exact absurd hload (by simp)
    · simp only [Except.ok.injEq] at hload
      subst hload
      rfl

/-- C6 (witness: the concrete saved index has `ef = 100`, the loaded one
comes back with the default instead, and `set_ef` then establishes the
requested value). -/
theorem load_does_not_restore_ef_witness :
    sampleFs ("dir") = some sampleSavedIndex.ffi.snapshot ∧
    sampleLoadedIndex.ffi.ef = nativeDefaultEf ∧
    (sampleLoadedIndex.set_ef 100).2.ffi.ef = usizeToCInt 100 :=
  ⟨rfl,
   (load_does_not_restore_ef sampleSavedIndex sampleFs ("dir") sampleIndexConfig 7
      sampleLoadedIndex 100 rfl rfl).1,
   (load_does_not_restore_ef sampleSavedIndex sampleFs ("dir") sampleIndexConfig 7
      sampleLoadedIndex 100 rfl rfl).2.1⟩

/-- C7: `new_persistent` fails with the config-invalid error
`MissingConfig("persist_path")` (whose `ChromaError` code is
`InvalidArgument`) exactly when the path is not valid UTF-8; for a valid
UTF-8 path it succeeds and stores exactly that path. -/
theorem new_persistent_utf8 (m efc efs : Nat) (p : OsPath) :
    (p.utf8 = none →
      HnswIndexConfig.new_persistent m efc efs p =
        .error (.MissingConfig ("persist_path")) ∧
      HnswIndexConfigError.code (.MissingConfig ("persist_path")) = .InvalidArgument) ∧
    (∀ s, p.utf8 = some s →
      HnswIndexConfig.new_persistent m efc efs p =
        .ok { max_elements := DEFAULT_MAX_ELEMENTS
              m := m
              ef_construction := efc
              ef_search := efs
              random_seed := 0
              persist_path := some s }) := by
  constructor
  · intro hn
    constructor
    · simp [HnswIndexConfig.new_persistent, hn]
    · rfl
  · intro s hs
    simp [HnswIndexConfig.new_persistent, hs]

/-- C7 (witness: a non-UTF-8 path and the path `"p"`). -/
theorem new_persistent_utf8_witness :
    (OsPath.mk none).utf8 = none ∧
    HnswIndexConfig.new_persistent 16 100 10 (OsPath.mk none) =
      .error (.MissingConfig ("persist_path")) ∧
    HnswIndexConfig.new_persistent 16 100 10 (OsPath.mk (some ("p"))) =
      .ok { max_elements := DEFAULT_MAX_ELEMENTS
            m := 16
            ef_construction := 100
            ef_search := 10
            random_seed := 0
            persist_path := some ("p") } :=
  ⟨rfl, ((new_persistent_utf8 16 100 10 (OsPath.mk none)).1 rfl).1,
   (new_persistent_utf8 16 100 10 (OsPath.mk (some ("p")))).2 ("p") rfl⟩

/-- C8: the dimensionality fixed at construction is returned by
`dimensionality()` after any sequence of `add`, `delete`, `query`, `resize`,
`set_ef`, `save`, `open_fd` and `close_fd` operations. -/
theorem dimensionality_invariant (icfg : IndexConfig) (hc : HnswIndexConfig) (uid : Nat)
    (idx : HnswIndex) (ops : List Op)
    (hinit : HnswIndex.init icfg (some hc) uid = .ok idx) :
    (applyOps idx ops).dimensionality = icfg.dimensionality := by
  rw [applyOps_dim]
  exact (init_ok_fields _ _ _ _ hinit).1

/-- C8 (witness: the sample index taken through one of each operation). -/
theorem dimensionality_invariant_witness :
    HnswIndex.init sampleIndexConfig (some sampleHnswConfig) 7 = .ok sampleIndex ∧
    (applyOps sampleIndex sampleOps).dimensionality = sampleIndexConfig.dimensionality :=
  ⟨rfl,
   dimensionality_invariant sampleIndexConfig sampleHnswConfig 7 sampleIndex sampleOps rfl⟩

/-- C9: a successful query returns label and distance vectors of equal
length, and that length is at most `min(k, len())`. -/
theorem query_result_lengths (self : HnswIndex) (v : List Float) (k : Nat)
    (a d : List Nat) (ids : List Nat) (dists : List Float)
    (h : (self.query v k a d).1 = .ok (ids, dists)) :
    ids.length = dists.length ∧ ids.length ≤ min k self.len := by
  obtain ⟨h1, h2⟩ := query_ok_lengths self v k a d ids dists h
  constructor
  · rw [h1, h2]
  · rw [h1]
    omega

/-- C9 (witness at the concrete one-element index with `k = 2`). -/
theorem query_result_lengths_witness :
    (sampleIndexOne.query [0.0, 0.0] 2 [] []).1 =
      .ok (sampleQueryResult.1, sampleQueryResult.2) ∧
    (sampleQueryResult.1.length = sampleQueryResult.2.length ∧
     sampleQueryResult.1.length ≤ min 2 sampleIndexOne.len) :=
  ⟨rfl,
   query_result_lengths sampleIndexOne [0.0, 0.0] 2 [] []
     sampleQueryResult.1 sampleQueryResult.2 rfl⟩

/-- C10: whenever `get` returns `Ok(Some(v))`, the vector `v` has length
exactly `dimensionality()` (for an index whose dimensionality is a
non-negative `i32`, as `init` builds them): the buffer is allocated with
`self.dimensionality as usize` entries and the native write cannot change
its length. -/
theorem get_vector_length_eq_dimensionality (idx : HnswIndex) (label : Nat)
    (v : List Float)
    (h0 : 0 ≤ idx.dimensionality) (h31 : idx.dimensionality < 2 ^ 31)
    (h : (idx.get label).1 = .ok (some v)) :
    (v.length : Int) = idx.dimensionality := by
  have hcast : ((cIntToUsize idx.dimensionality : Nat) : Int) = idx.dimensionality := by
    simp only [cIntToUsize]
    rw [Int.emod_eq_of_lt h0 (by omega)]
    exact Int.toNat_of_nonneg h0
  simp only [HnswIndex.get, NativeIndex.get_item, read_and_return_hnsw_error] at h
  cases hF : List.find? (fun p => p.1 == label) (idx.ffi.items ++ idx.ffi.deletedItems) with
  | none =>
      rw [hF] at h
      simp only [Except.ok.injEq, Option.some.injEq] at h
      subst h
      simp only [List.length_replicate]
      exact hcast
  | some p =>
      rw [hF] at h
      simp only [Except.ok.injEq, Option.some.injEq] at h
      subst h
      simp only [writeInto_length, List.length_replicate]
      exact hcast

/-- C10 (witness: the vector returned for label 5 on the concrete
2-dimensional index has integer length 2). -/
theorem get_vector_length_eq_dimensionality_witness :
    (0 ≤ sampleIndex.dimensionality ∧ sampleIndex.dimensionality < 2 ^ 31) ∧
    (sampleGetVec.length : Int) = sampleIndex.dimensionality :=
  ⟨⟨by decide, by decide⟩,
   get_vector_length_eq_dimensionality sampleIndex 5 sampleGetVec (by decide) (by decide)
     rfl⟩

end ChromaHnsw
